import Mathlib

/-!
Verification development for the EmptyEpsilon home-automation integration
(custom_components/empty_epsilon).  The Python source is shallowly embedded:

* string manipulation helpers model the `str` methods used by the code
  (`strip`, `lower`, `startswith`, `in`, `split`);
* `PyFloat` models CPython `float` values including the infinities and NaN
  produced by `float(...)` parsing (finite values are kept as exact
  rationals; rounding of decimal literals to binary doubles is not
  modelled, but overflow of parsed literals beyond the double range is);
* `Json` with a fuel-based recursive-descent reader models `json.loads`;
* `execLua` models `EEAPIClient.exec_lua`, the typed query methods of
  `EEAPIClient` are total functions of the `exec_lua` outcome;
* `inferPaused` models `EmptyEpsilonCoordinator._infer_paused`;
* `asyncUpdateData` models `EmptyEpsilonCoordinator._async_update_data`
  (exceptions become `Except`, the monotonic clock is an explicit input);
* `packetReceived` and `decodeDmxValue` model `SACNListener._packet_received`
  and `_decode_dmx_value` from sacn_listener.py.
-/

/- The Batteries library marks the rational arithmetic operations
irreducible; reopen them so that concrete cycles evaluate with `decide`. -/
attribute [local semireducible] Rat.add Rat.sub Rat.mul Rat.inv

/-! ## Python string helpers -/

/-- Characters stripped by Python `str.strip()` with no argument
(ASCII whitespace; the further Unicode whitespace stripped by CPython is
not modelled, no reply handled by the integration contains it). -/
def pyWsB (c : Char) : Bool :=
  c = ' ' || c = '\t' || c = '\n' || c = '\r' || c = Char.ofNat 11 || c = Char.ofNat 12

/-- Whitespace skipped by `json.loads` between tokens (space, tab, LF, CR). -/
def jsonWsB (c : Char) : Bool :=
  c = ' ' || c = '\t' || c = '\n' || c = '\r'

/-- Drop the longest prefix of characters satisfying `p`. -/
def skipWhile (p : Char → Bool) : List Char → List Char
  | [] => []
  | c :: rest => if p c then skipWhile p rest else c :: rest

/-- Remove characters satisfying `p` from both ends of a character list
(the core of Python `str.strip`). -/
def stripEnds (p : Char → Bool) (cs : List Char) : List Char :=
  List.reverse (skipWhile p (List.reverse (skipWhile p cs)))

/-- Python `s.strip()` (whitespace form). -/
def pyStripWs (s : String) : String := String.mk (stripEnds pyWsB s.toList)

/-- The character set of Python `strip('"\'')` used throughout ee_api.py:
a double quote and a single quote. -/
def quoteB (c : Char) : Bool := c = Char.ofNat 34 || c = Char.ofNat 39

/-- Python `s.strip('"\'')`. -/
def pyStripQuotes (s : String) : String := String.mk (stripEnds quoteB s.toList)

/-- Python `s.lower()` (per-character lowering; adequate for the ASCII
faction and boolean replies the integration handles). -/
def pyLower (s : String) : String := String.mk (s.toList.map Char.toLower)

/-- `leadsWith pre l` is true when `pre` is a leading segment of `l`. -/
def leadsWith : List Char → List Char → Bool
  | [], _ => true
  | _ :: _, [] => false
  | a :: xs, b :: ys => a = b && leadsWith xs ys

/-- Python `s.startswith(p)`. -/
def pyStartsWith (s p : String) : Bool := leadsWith p.toList s.toList

/-- `containsSeg sub l`: Python `sub in s` on character lists. -/
def containsSeg (sub : List Char) : List Char → Bool
  | [] => leadsWith sub []
  | c :: rest => leadsWith sub (c :: rest) || containsSeg sub rest

/-- Python `sub in s` for strings. -/
def pyContains (s sub : String) : Bool := containsSeg sub.toList s.toList

/-- Auxiliary for Python `str.split(sep, maxsplit)`: `cur` is the reversed
current chunk, `n` the remaining number of splits allowed. -/
def pySplitAux (sep : Char) : List Char → Nat → List Char → List String
  | [], _, cur => [String.mk cur.reverse]
  | c :: rest, n, cur =>
    if c = sep ∧ n ≠ 0 then
      String.mk cur.reverse :: pySplitAux sep rest (n - 1) []
    else
      pySplitAux sep rest n (c :: cur)

/-- Python `s.split(sep, maxsplit)` for a one-character separator. -/
def pySplit (s : String) (sep : Char) (maxsplit : Nat) : List String :=
  pySplitAux sep s.toList maxsplit []

/-! ## Python floats -/

/-- A CPython float as produced by `float(text)`: an exact rational for
finite values (decimal-to-double rounding is not modelled), or one of the
special values. -/
inductive PyFloat where
  | finite (q : ℚ)
  | inf
  | ninf
  | nan
deriving DecidableEq, Repr

/-- Smallest magnitude at which `float(text)` overflows to an infinity:
the rounding boundary above DBL_MAX, `(2 - 2 ^ (-53)) * 2 ^ 1023`. -/
def doubleOverflowBound : ℚ :=
  179769313486231580793728971405303415079934132710037826936173778980444968292764750946649017977587207096330286416692887910946555547851940402630657488671505820681908902000708383676273854845817711531764475730270069855571366959622842914819860834936475292719074168444365510704342711559699508093042880177904174497792

/-- Classify an exactly-parsed decimal value as a double: overflow becomes
an infinity, everything else stays the exact rational. -/
def clampToDouble (q : ℚ) : PyFloat :=
  if doubleOverflowBound ≤ q then PyFloat.inf
  else if q ≤ -doubleOverflowBound then PyFloat.ninf
  else PyFloat.finite q

/-- IEEE subtraction on the embedded floats. -/
def PyFloat.sub : PyFloat → PyFloat → PyFloat
  | .nan, _ => .nan
  | .finite _, .nan => .nan
  | .inf, .nan => .nan
  | .ninf, .nan => .nan
  | .finite a, .finite b => .finite (a - b)
  | .finite _, .inf => .ninf
  | .finite _, .ninf => .inf
  | .inf, .finite _ => .inf
  | .inf, .inf => .nan
  | .inf, .ninf => .inf
  | .ninf, .finite _ => .ninf
  | .ninf, .inf => .ninf
  | .ninf, .ninf => .nan

/-- IEEE `<` on the embedded floats (comparisons with NaN are false). -/
def PyFloat.ltB : PyFloat → PyFloat → Bool
  | .nan, _ => false
  | .finite _, .nan => false
  | .inf, .nan => false
  | .ninf, .nan => false
  | .finite a, .finite b => decide (a < b)
  | .finite _, .inf => true
  | .finite _, .ninf => false
  | .inf, _ => false
  | .ninf, .inf => true
  | .ninf, .finite _ => true
  | .ninf, .ninf => false

/-- Digit run with CPython underscore rules: one leading digit, then
digits, an underscore being legal only between two digits.  Returns the
digits collected and the unconsumed remainder; `none` on a malformed
underscore placement. -/
def underscoreTail : List Char → Option (List Char × List Char)
  | [] => some ([], [])
  | c :: rest =>
    if c.isDigit then
      match underscoreTail rest with
      | some (ds, r) => some (c :: ds, r)
      | none => none
    else if c = '_' then
      match rest with
      | [] => none
      | d :: rest2 =>
        if d.isDigit then
          match underscoreTail rest2 with
          | some (ds, r) => some (d :: ds, r)
          | none => none
        else none
    else some ([], c :: rest)

/-- Run of digits (with underscores) that must start with a digit. -/
def underscoreRun (cs : List Char) : Option (List Char × List Char) :=
  match cs with
  | [] => none
  | c :: rest =>
    if c.isDigit then
      match underscoreTail rest with
      | some (ds, r) => some (c :: ds, r)
      | none => none
    else none

/-- Numeric value of a digit list. -/
def digitsVal (ds : List Char) : ℕ :=
  ds.foldl (fun a c => a * 10 + (c.toNat - 48)) 0

/-- `10 ^ e` as a rational for an integer exponent (spelled with natural
powers so that it evaluates by kernel reduction). -/
def pow10Z : ℤ → ℚ
  | .ofNat n => ((Nat.pow 10 n : ℕ) : ℚ)
  | .negSucc n => 1 / ((Nat.pow 10 (n + 1) : ℕ) : ℚ)

/-- Exponent suffix of a CPython float literal: empty, or `e`/`E`, an
optional sign, and a digit run which must end the string. -/
def parseExpTail (base : ℚ) (cs : List Char) : Option ℚ :=
  match cs with
  | [] => some base
  | c :: rest =>
    if c = 'e' ∨ c = 'E' then
      let sr : ℤ × List Char :=
        match rest with
        | c2 :: r2 => if c2 = '+' then (1, r2) else if c2 = '-' then (-1, r2) else (1, rest)
        | [] => (1, [])
      match underscoreRun sr.2 with
      | some (ds, r2) =>
        if r2 = [] then some (base * pow10Z (sr.1 * (digitsVal ds : ℤ))) else none
      | none => none
    else none

/-- Body of a CPython float literal after the sign: digits, an optional
fraction, an optional exponent; at least one digit must be present. -/
def parsePyNumber (cs : List Char) : Option ℚ :=
  let ir : Option (List Char) × List Char :=
    match underscoreRun cs with
    | some (ds, r) => (some ds, r)
    | none => (none, cs)
  match ir.2 with
  | '.' :: rest2 =>
    let fr : List Char × List Char :=
      match underscoreRun rest2 with
      | some (ds, r) => (ds, r)
      | none => ([], rest2)
    if ir.1 = none ∧ fr.1 = [] then none
    else
      let ip : ℕ := digitsVal (ir.1.getD [])
      let base : ℚ := (ip : ℚ) + (digitsVal fr.1 : ℚ) / ((Nat.pow 10 fr.1.length : ℕ) : ℚ)
      parseExpTail base fr.2
  | rest =>
    match ir.1 with
    | none => none
    | some ds => parseExpTail ((digitsVal ds : ℚ)) rest

/-- CPython `float(text)`: strip whitespace, optional sign, then either
`inf`/`infinity`/`nan` (case-insensitive) or a decimal literal.  `none`
models a `ValueError`. -/
def pyFloatOfString (s : String) : Option PyFloat :=
  let cs := stripEnds pyWsB s.toList
  let sr : Bool × List Char :=
    match cs with
    | c :: r => if c = '+' then (false, r) else if c = '-' then (true, r) else (false, cs)
    | [] => (false, [])
  let low := sr.2.map Char.toLower
  if low = ['i', 'n', 'f'] ∨ low = ['i', 'n', 'f', 'i', 'n', 'i', 't', 'y'] then
    some (if sr.1 then PyFloat.ninf else PyFloat.inf)
  else if low = ['n', 'a', 'n'] then some PyFloat.nan
  else
    match parsePyNumber sr.2 with
    | some q => some (clampToDouble (if sr.1 then -q else q))
    | none => none

/-- Exceptions that can escape the numeric conversion paths of ee_api.py. -/
inductive PyExc where
  | valueError
  | overflowError
deriving DecidableEq, Repr

/-- CPython `int(f)` for a float argument: truncation toward zero for
finite values, `OverflowError` for the infinities, `ValueError` for NaN. -/
def pyIntOfFloat : PyFloat → Except PyExc ℤ
  | .finite q => .ok (if 0 ≤ q then ⌊q⌋ else ⌈q⌉)
  | .inf => .error .overflowError
  | .ninf => .error .overflowError
  | .nan => .error .valueError

/-- CPython `int(float(text))`. -/
def strToIntViaFloat (t : String) : Except PyExc ℤ :=
  match pyFloatOfString t with
  | none => .error .valueError
  | some f => pyIntOfFloat f

/-! ## JSON (the subset of `json.loads` behaviour used by `exec_lua`) -/

/-- A parsed JSON value. -/
inductive Json where
  | null
  | bool (b : Bool)
  | num (q : ℚ)
  | str (s : String)
  | arr (xs : List Json)
  | obj (kvs : List (String × Json))

/-- Plain digit run (JSON numbers take no underscores). -/
def digitRun : List Char → List Char × List Char
  | [] => ([], [])
  | c :: rest =>
    if c.isDigit then
      let dr := digitRun rest
      (c :: dr.1, dr.2)
    else ([], c :: rest)

/-- Value of a hexadecimal digit, if any. -/
def hexVal (c : Char) : Option ℕ :=
  if c.isDigit then some (c.toNat - 48)
  else if 'a' ≤ c ∧ c ≤ 'f' then some (c.toNat - 87)
  else if 'A' ≤ c ∧ c ≤ 'F' then some (c.toNat - 55)
  else none

/-- JSON string body after the opening quote.  `acc` is the reversed
collected text.  Control characters must be escaped; `\uXXXX` escapes are
mapped through `Char.ofNat` (surrogate pairing is not modelled). -/
def parseJStringAux : ℕ → List Char → List Char → Option (String × List Char)
  | 0, _, _ => none
  | _ + 1, [], _ => none
  | fuel + 1, c :: rest, acc =>
    if c = Char.ofNat 34 then some (String.mk acc.reverse, rest)
    else if c = '\\' then
      match rest with
      | [] => none
      | e :: rest2 =>
        if e = Char.ofNat 34 then parseJStringAux fuel rest2 (Char.ofNat 34 :: acc)
        else if e = '\\' then parseJStringAux fuel rest2 ('\\' :: acc)
        else if e = '/' then parseJStringAux fuel rest2 ('/' :: acc)
        else if e = 'b' then parseJStringAux fuel rest2 (Char.ofNat 8 :: acc)
        else if e = 'f' then parseJStringAux fuel rest2 (Char.ofNat 12 :: acc)
        else if e = 'n' then parseJStringAux fuel rest2 ('\n' :: acc)
        else if e = 'r' then parseJStringAux fuel rest2 (Char.ofNat 13 :: acc)
        else if e = 't' then parseJStringAux fuel rest2 ('\t' :: acc)
        else if e = 'u' then
          match rest2 with
          | h1 :: h2 :: h3 :: h4 :: rest3 =>
            match hexVal h1, hexVal h2, hexVal h3, hexVal h4 with
            | some a, some b, some c2, some d =>
              parseJStringAux fuel rest3 (Char.ofNat (((a * 16 + b) * 16 + c2) * 16 + d) :: acc)
            | _, _, _, _ => none
          | _ => none
        else none
    else if c.toNat < 32 then none
    else parseJStringAux fuel rest (c :: acc)

/-- JSON number: `-? (0 | [1-9][0-9]*) (. [0-9]+)? ([eE][+-]?[0-9]+)?`. -/
def parseJNumber (cs : List Char) : Option (ℚ × List Char) :=
  let sr : Bool × List Char :=
    match cs with
    | c :: r => if c = '-' then (true, r) else (false, cs)
    | [] => (false, [])
  match sr.2 with
  | [] => none
  | d :: _ =>
    if d.isDigit then
      let ir := digitRun sr.2
      if 1 < ir.1.length ∧ ir.1.headI = '0' then none
      else
        let intval : ℚ := (digitsVal ir.1 : ℚ)
        let fr : Option (ℚ × List Char) :=
          match ir.2 with
          | '.' :: rest2 =>
            let dr := digitRun rest2
            if dr.1 = [] then none
            else some (intval + (digitsVal dr.1 : ℚ) / ((Nat.pow 10 dr.1.length : ℕ) : ℚ), dr.2)
          | rest => some (intval, rest)
        match fr with
        | none => none
        | some (base, rest3) =>
          match rest3 with
          | c :: rest4 =>
            if c = 'e' ∨ c = 'E' then
              let esr : ℤ × List Char :=
                match rest4 with
                | c2 :: r2 =>
                  if c2 = '+' then (1, r2) else if c2 = '-' then (-1, r2) else (1, rest4)
                | [] => (1, [])
              let er := digitRun esr.2
              if er.1 = [] then none
              else
                some ((if sr.1 then -base else base) * pow10Z (esr.1 * (digitsVal er.1 : ℤ)), er.2)
            else some (if sr.1 then -base else base, rest3)
          | [] => some (if sr.1 then -base else base, [])
    else none

/-- Skip JSON inter-token whitespace. -/
def jsonSkipWs (cs : List Char) : List Char := skipWhile jsonWsB cs

/-- Consume an expected literal character sequence, returning the
remainder. -/
def expectChars : List Char → List Char → Option (List Char)
  | [], cs => some cs
  | _ :: _, [] => none
  | e :: es, c :: cs => if c = e then expectChars es cs else none

mutual

/-- Parse one JSON value.  The head constructor of the result is fully
determined by the first character of the input. -/
def parseValue : ℕ → List Char → Option (Json × List Char)
  | 0, _ => none
  | _ + 1, [] => none
  | fuel + 1, c :: rest =>
    if c = '{' then
      Option.map (fun p => (Json.obj p.1, p.2)) (parseMembers fuel (jsonSkipWs rest))
    else if c = '[' then
      Option.map (fun p => (Json.arr p.1, p.2)) (parseElements fuel (jsonSkipWs rest))
    else if c = Char.ofNat 34 then
      Option.map (fun p => (Json.str p.1, p.2)) (parseJStringAux (rest.length + 1) rest [])
    else if c = 't' then
      Option.map (fun r2 => (Json.bool true, r2)) (expectChars ['r', 'u', 'e'] rest)
    else if c = 'f' then
      Option.map (fun r2 => (Json.bool false, r2)) (expectChars ['a', 'l', 's', 'e'] rest)
    else if c = 'n' then
      Option.map (fun r2 => (Json.null, r2)) (expectChars ['u', 'l', 'l'] rest)
    else
      Option.map (fun p => (Json.num p.1, p.2)) (parseJNumber (c :: rest))

/-- Members of a JSON object, starting just after `{` with whitespace
skipped; handles the empty object, otherwise delegates. -/
def parseMembers : ℕ → List Char → Option (List (String × Json) × List Char)
  | 0, _ => none
  | _ + 1, [] => none
  | fuel + 1, c :: rest =>
    if c = '}' then some ([], rest)
    else parseMemberSeq fuel (c :: rest)

/-- One or more `"key": value` members separated by commas, ending at `}`. -/
def parseMemberSeq : ℕ → List Char → Option (List (String × Json) × List Char)
  | 0, _ => none
  | _ + 1, [] => none
  | fuel + 1, c :: rest =>
    if c = Char.ofNat 34 then
      match parseJStringAux (rest.length + 1) rest [] with
      | some (k, r1) =>
        match jsonSkipWs r1 with
        | ':' :: r2 =>
          match parseValue fuel (jsonSkipWs r2) with
          | some (v, r3) =>
            match jsonSkipWs r3 with
            | ',' :: r4 =>
              match parseMemberSeq fuel (jsonSkipWs r4) with
              | some (kvs, r5) => some ((k, v) :: kvs, r5)
              | none => none
            | '}' :: r4 => some ([(k, v)], r4)
            | _ => none
          | none => none
        | _ => none
      | none => none
    else none

/-- Elements of a JSON array, starting just after `[` with whitespace
skipped. -/
def parseElements : ℕ → List Char → Option (List Json × List Char)
  | 0, _ => none
  | _ + 1, [] => none
  | fuel + 1, c :: rest =>
    if c = ']' then some ([], rest)
    else parseElementSeq fuel (c :: rest)

/-- One or more array elements separated by commas, ending at `]`. -/
def parseElementSeq : ℕ → List Char → Option (List Json × List Char)
  | 0, _ => none
  | fuel + 1, cs =>
    match parseValue fuel cs with
    | some (v, r1) =>
      match jsonSkipWs r1 with
      | ',' :: r2 =>
        match parseElementSeq fuel (jsonSkipWs r2) with
        | some (vs, r3) => some (v :: vs, r3)
        | none => none
      | ']' :: r2 => some ([v], r2)
      | _ => none
    | none => none

end

/-- `json.loads`: whitespace-framed single JSON value consuming the whole
text. -/
def jsonLoads (s : String) : Option Json :=
  let cs := s.toList
  match parseValue (2 * cs.length + 8) (jsonSkipWs cs) with
  | some (v, rest) => if jsonSkipWs rest = [] then some v else none
  | none => none

/-! ## RPC client (`EEAPIClient`, ee_api.py) -/

/-- The exception raised by `exec_lua` (`EEAPIError`).  The message of the
JSON-error case is kept only when the `ERROR` value is a JSON string; the
raw body is kept as in the source. -/
structure EEAPIError where
  message : String
  raw : Option String := none
deriving DecidableEq, Repr

/-- What the transport produced for one `exec_lua` POST: either the
request itself failed (`aiohttp.ClientError`: connection refused, timeout,
…) or the server answered with a status code and a body. -/
inductive TransportOutcome where
  | transportFail (message : String)
  | response (status : ℕ) (body : String)
deriving DecidableEq, Repr

/-- The opening-brace string used for the `text.strip().startswith("{")`
probe (spelled via `Char.ofNat` to keep the literal out of string
syntax). -/
def braceStr : String := String.mk [Char.ofNat 123]

/-- Value of `"ERROR" in data` for a parsed JSON object. -/
def objHasErrorKey (kvs : List (String × Json)) : Bool :=
  kvs.any (fun kv => kv.1 = "ERROR")

/-- `data["ERROR"]` rendered to the exception message: the string itself
for a JSON string (the only shape the game server produces); other shapes
are rendered as an empty placeholder, the message is never inspected. -/
def errorValMessage (kvs : List (String × Json)) : String :=
  match (kvs.reverse.find? (fun kv => kv.1 = "ERROR")).map (fun kv => kv.2) with
  | some (Json.str s) => s
  | _ => ""

/-- `EEAPIClient.exec_lua` (ee_api.py lines 33-63): raise on transport
failure, on a non-200 status, and on a body that is a JSON object with an
`ERROR` key; otherwise return the body text unchanged.  A body whose
stripped form starts with `{` but fails `json.loads` falls through the
`except ValueError: pass`. -/
def execLua (outcome : TransportOutcome) : Except EEAPIError String :=
  match outcome with
  | .transportFail msg => .error { message := msg }
  | .response status text =>
    if status ≠ 200 then
      .error { message := "HTTP " ++ toString status ++ ": " ++ text, raw := some text }
    else if pyStartsWith (pyStripWs text) braceStr then
      match jsonLoads text with
      | some (Json.obj kvs) =>
        if objHasErrorKey kvs then
          .error { message := errorValMessage kvs, raw := some text }
        else .ok text
      | some _ => .ok text
      | none => .ok text
    else .ok text

/-- `get_has_game` (ee_api.py lines 73-84): strip whitespace then quotes,
compare lowercased to `"true"`; any `EEAPIError` yields `false`. -/
def getHasGame (r : Except EEAPIError String) : Bool :=
  match r with
  | .error _ => false
  | .ok t => pyLower (pyStripQuotes (pyStripWs t)) = "true"

/-- `get_scenario_time` (ee_api.py lines 65-71): `float(r)` when the reply
is non-empty after stripping, `None` on `EEAPIError` or `ValueError`. -/
def getScenarioTime (r : Except EEAPIError String) : Option PyFloat :=
  match r with
  | .error _ => none
  | .ok t => if t ≠ "" ∧ pyStripWs t ≠ "" then pyFloatOfString t else none

/-- `is_paused` (ee_api.py lines 111-123): strip whitespace, lower, strip
quotes, compare to `"true"`; `false` on `EEAPIError`. -/
def isPausedQuery (r : Except EEAPIError String) : Bool :=
  match r with
  | .error _ => false
  | .ok t => pyStripQuotes (pyLower (pyStripWs t)) = "true"

/-- `get_victory_faction` (ee_api.py lines 97-109): strip whitespace then
quotes; empty and `nil`/`null`/`none` (case-insensitive) mean "game not
over"; `None` on `EEAPIError`. -/
def getVictoryFaction (r : Except EEAPIError String) : Option String :=
  match r with
  | .error _ => none
  | .ok t =>
    let raw := pyStripQuotes (pyStripWs t)
    if raw = "" ∨ pyLower raw = "nil" ∨ pyLower raw = "null" ∨ pyLower raw = "none" then none
    else some raw

/-- Common body of the int-valued count queries
(`int(float(r.strip())) if r and r.strip() else 0` under
`except (EEAPIError, ValueError): return 0`).  A `ValueError` from the
conversion is caught; an `OverflowError` from `int()` on an infinite float
escapes the method. -/
def countQuery (r : Except EEAPIError String) : Except PyExc ℤ :=
  match r with
  | .error _ => .ok 0
  | .ok t =>
    if t ≠ "" ∧ pyStripWs t ≠ "" then
      match strToIntViaFloat (pyStripWs t) with
      | .ok n => .ok n
      | .error .valueError => .ok 0
      | .error e => .error e
    else .ok 0

/-- `get_player_ship_count` (ee_api.py lines 86-95). -/
def getPlayerShipCount (r : Except EEAPIError String) : Except PyExc ℤ := countQuery r

/-- `get_total_objects` (ee_api.py lines 282-290). -/
def getTotalObjects (r : Except EEAPIError String) : Except PyExc ℤ := countQuery r

/-- `get_enemy_ship_count` (ee_api.py lines 292-302). -/
def getEnemyShipCount (r : Except EEAPIError String) : Except PyExc ℤ := countQuery r

/-- `get_friendly_station_count` (ee_api.py lines 304-314). -/
def getFriendlyStationCount (r : Except EEAPIError String) : Except PyExc ℤ := countQuery r

/-- The record built by `get_primary_ship_info` (all fields start as
`None`). -/
structure PrimaryShipInfo where
  callsign : Option String := none
  ship_type : Option String := none
  sector : Option String := none
  homing : Option ℤ := none
  nuke : Option ℤ := none
  emp : Option ℤ := none
  mine : Option ℤ := none
  hvli : Option ℤ := none
  reputation : Option ℤ := none
deriving DecidableEq, Repr

/-- One ammo field of `get_primary_ship_info`:
`int(float(parts[i])) if i < len(parts) and parts[i] else 0` with
`except (ValueError, IndexError): 0`; an `OverflowError` escapes. -/
def ammoField (parts : List String) (i : ℕ) : Except PyExc ℤ :=
  if i < parts.length ∧ parts.getD i "" ≠ "" then
    match strToIntViaFloat (parts.getD i "") with
    | .ok n => .ok n
    | .error .valueError => .ok 0
    | .error e => .error e
  else .ok 0

/-- The pipe character used as the reply delimiter. -/
def pipeChar : Char := '|'

/-- `get_primary_ship_info` (ee_api.py lines 316-364): delimiter-joined
reply split on `|` with maxsplit 8, each field defaulting independently;
`EEAPIError` yields the all-`None` record.  An `OverflowError` from an
ammo or reputation conversion escapes the method. -/
def getPrimaryShipInfo (r : Except EEAPIError String) : Except PyExc PrimaryShipInfo :=
  match r with
  | .error _ => .ok {}
  | .ok t =>
    if t = "" ∨ ¬ pyContains t (String.mk [pipeChar]) then .ok {}
    else
      let raw := pyStripQuotes (pyStripWs t)
      let parts := pySplit raw pipeChar 8
      let p0 := parts.getD 0 ""
      let callsign : Option String :=
        if p0 ≠ "" then
          (if pyStripQuotes (pyStripWs p0) ≠ "" then some (pyStripQuotes (pyStripWs p0)) else none)
        else none
      let ship_type : Option String :=
        if 1 < parts.length then
          (if pyStripWs (parts.getD 1 "") ≠ "" then some (pyStripWs (parts.getD 1 "")) else none)
        else none
      let sector : Option String :=
        if 2 < parts.length then
          (if pyStripWs (parts.getD 2 "") ≠ "" then some (pyStripWs (parts.getD 2 "")) else none)
        else none
      match ammoField parts 3 with
      | .error e => .error e
      | .ok homing =>
      match ammoField parts 4 with
      | .error e => .error e
      | .ok nuke =>
      match ammoField parts 5 with
      | .error e => .error e
      | .ok emp =>
      match ammoField parts 6 with
      | .error e => .error e
      | .ok mine =>
      match ammoField parts 7 with
      | .error e => .error e
      | .ok hvli =>
        if 8 < parts.length then
          let repRaw := pyStripQuotes (pyStripWs (parts.getD 8 ""))
          if repRaw ≠ "" ∧ pyLower repRaw ≠ "nil" ∧ pyLower repRaw ≠ "null" ∧
              pyLower repRaw ≠ "none" then
            match strToIntViaFloat repRaw with
            | .ok n =>
              .ok { callsign := callsign, ship_type := ship_type, sector := sector,
                    homing := some homing, nuke := some nuke, emp := some emp,
                    mine := some mine, hvli := some hvli, reputation := some n }
            | .error .valueError =>
              .ok { callsign := callsign, ship_type := ship_type, sector := sector,
                    homing := some homing, nuke := some nuke, emp := some emp,
                    mine := some mine, hvli := some hvli, reputation := some 0 }
            | .error e => .error e
          else
            .ok { callsign := callsign, ship_type := ship_type, sector := sector,
                  homing := some homing, nuke := some nuke, emp := some emp,
                  mine := some mine, hvli := some hvli, reputation := some 0 }
        else
          .ok { callsign := callsign, ship_type := ship_type, sector := sector,
                homing := some homing, nuke := some nuke, emp := some emp,
                mine := some mine, hvli := some hvli, reputation := none }

/-! ## Pause inferencer (`EmptyEpsilonCoordinator._infer_paused`) -/

/-- The inferencer's state held on the coordinator: `_last_scenario_time`,
`_last_scenario_time_at` (monotonic-clock stamp), `_last_inferred_paused`
and `_running_count`. -/
structure InferState where
  last_scenario_time : Option PyFloat := none
  last_scenario_time_at : ℚ := 0
  last_inferred_paused : Option Bool := none
  running_count : ℕ := 0
deriving DecidableEq, Repr

/-- `_infer_paused` (coordinator.py lines 57-90), with `time.monotonic()`
passed explicitly as `now`.  Returns the reported paused flag and the
updated state.  A `None` scenario time clears the stored time and the
running counter and returns the sticky last inference (or `false`); a
sample closer than 1 s to the previous one keeps the last inference and
only refreshes the stored time; otherwise the sample is classified
raw-paused when the scenario clock advanced by less than 0.2 and the
two-sample hysteresis is applied. -/
def inferPaused (s : InferState) (scenarioTime : Option PyFloat) (now : ℚ) :
    Bool × InferState :=
  match scenarioTime with
  | none =>
    (s.last_inferred_paused.getD false,
     { s with last_scenario_time := none, running_count := 0 })
  | some stv =>
    match s.last_scenario_time with
    | some lastT =>
      if 1 ≤ now - s.last_scenario_time_at then
        if PyFloat.ltB (PyFloat.sub stv lastT) (PyFloat.finite (1 / 5)) then
          (true, { last_scenario_time := some stv, last_scenario_time_at := now,
                   last_inferred_paused := some true, running_count := 0 })
        else if s.last_inferred_paused = some true then
          (decide (s.running_count + 1 < 2),
           { last_scenario_time := some stv, last_scenario_time_at := now,
             last_inferred_paused := some (decide (s.running_count + 1 < 2)),
             running_count := s.running_count + 1 })
        else
          (false, { last_scenario_time := some stv, last_scenario_time_at := now,
                    last_inferred_paused := some false,
                    running_count := s.running_count })
      else
        (s.last_inferred_paused.getD false,
         { s with last_scenario_time := some stv, last_scenario_time_at := now })
    | none =>
      (s.last_inferred_paused.getD false,
       { s with last_scenario_time := some stv, last_scenario_time_at := now })

/-! ## State fusion coordinator (`EmptyEpsilonCoordinator._async_update_data`) -/

/-- The five `GAME_STATUS_*` constants of const.py. -/
def GAME_STATUS_SETUP : String := "setup"

/-- Game status: a game is running and not paused. -/
def GAME_STATUS_PLAYING : String := "playing"

/-- Game status: a game is running but paused. -/
def GAME_STATUS_PAUSED : String := "paused"

/-- Game status: the game ended and a human faction won. -/
def GAME_STATUS_GAME_OVER_VICTORY : String := "game_over_victory"

/-- Game status: the game ended and a non-human faction won. -/
def GAME_STATUS_GAME_OVER_DEFEAT : String := "game_over_defeat"

/-- Python truthiness of the `victory` optional string (`if victory:`):
present and non-empty. -/
def pyTruthyOptStr (v : Option String) : Bool :=
  match v with
  | none => false
  | some s => s ≠ ""

/-- The game-status derivation of coordinator.py lines 132-143:
victory faction present and containing `"human"` case-insensitively ⇒
victory, any other present faction ⇒ defeat, otherwise paused/playing. -/
def deriveStatus (victory : Option String) (paused : Bool) : String :=
  if pyTruthyOptStr victory then
    if pyTruthyOptStr victory && pyContains (pyLower (victory.getD "")) "human" then
      GAME_STATUS_GAME_OVER_VICTORY
    else GAME_STATUS_GAME_OVER_DEFEAT
  else if paused then GAME_STATUS_PAUSED
  else GAME_STATUS_PLAYING

/-- One transport outcome per `exec_lua` call the poll cycle makes, in
source order. -/
structure CycleOutcomes where
  has_game : TransportOutcome
  scenario_time : TransportOutcome
  player_ship_count : TransportOutcome
  is_paused : TransportOutcome
  victory_faction : TransportOutcome
  total_objects : TransportOutcome
  enemy_ship_count : TransportOutcome
  friendly_station_count : TransportOutcome
  primary_ship : TransportOutcome
deriving DecidableEq, Repr

/-- The `data["http"]` facts published by a successful cycle.  The empty
dict assigned to `primary_ship` in the no-game branch is modelled as
`none`; the populated record as `some info`. -/
structure HttpData where
  server_reachable : Bool
  has_game : Bool
  scenario_time : Option PyFloat
  player_ship_count : ℤ
  paused : Bool
  victory_faction : Option String
  total_objects : ℤ
  enemy_ship_count : ℤ
  friendly_station_count : ℤ
  primary_ship : Option PrimaryShipInfo
deriving DecidableEq, Repr

/-- The snapshot published by one fusion cycle: latest decoded telemetry,
HTTP facts, and the derived game status. -/
structure CycleData where
  sacn : List (String × ℚ)
  http : HttpData
  game_status : String
deriving DecidableEq, Repr

/-- `_async_update_data` (coordinator.py lines 100-169).  All typed
queries catch `EEAPIError` internally, so the coordinator's
`except EEAPIError` branch (lines 158-163, which would set
`server_reachable` to `False`) can never run; the only exception that can
escape a getter is an `OverflowError` from an `int()` conversion, which
falls into the generic `except Exception` branch and re-raises as
`UpdateFailed` — modelled as `Except.error`.  The inferencer state after
the cycle is returned alongside (Python mutates it in place even when a
later getter raises). -/
def asyncUpdateData (o : CycleOutcomes) (sacn : List (String × ℚ))
    (st : InferState) (now : ℚ) : InferState × Except PyExc CycleData :=
  let hasGame := getHasGame (execLua o.has_game)
  if hasGame then
    let scenarioTime := getScenarioTime (execLua o.scenario_time)
    match getPlayerShipCount (execLua o.player_ship_count) with
    | .error e => (st, .error e)
    | .ok psc =>
      let pausedApi := isPausedQuery (execLua o.is_paused)
      let pr := if pausedApi then (true, st) else inferPaused st scenarioTime now
      let victory := getVictoryFaction (execLua o.victory_faction)
      match getTotalObjects (execLua o.total_objects) with
      | .error e => (pr.2, .error e)
      | .ok tot =>
      match getEnemyShipCount (execLua o.enemy_ship_count) with
      | .error e => (pr.2, .error e)
      | .ok enemy =>
      match getFriendlyStationCount (execLua o.friendly_station_count) with
      | .error e => (pr.2, .error e)
      | .ok friendly =>
      match getPrimaryShipInfo (execLua o.primary_ship) with
      | .error e => (pr.2, .error e)
      | .ok ship =>
        (pr.2,
         .ok { sacn := sacn,
               http := { server_reachable := true, has_game := true,
                         scenario_time := scenarioTime, player_ship_count := psc,
                         paused := pr.1, victory_faction := victory,
                         total_objects := tot, enemy_ship_count := enemy,
                         friendly_station_count := friendly,
                         primary_ship := some ship },
               game_status := deriveStatus victory pr.1 })
  else
    ({ st with last_scenario_time := none, last_inferred_paused := none,
               running_count := 0 },
     .ok { sacn := sacn,
           http := { server_reachable := true, has_game := false,
                     scenario_time := none, player_ship_count := 0,
                     paused := false, victory_faction := none,
                     total_objects := 0, enemy_ship_count := 0,
                     friendly_station_count := 0, primary_ship := none },
           game_status := GAME_STATUS_SETUP })

/-! ## Telemetry decoder (`SACNListener`, sacn_listener.py) -/

/-- `_decode_dmx_value` (sacn_listener.py lines 21-23): map a DMX byte
0-255 linearly to `min_out .. max_out`. -/
def decodeDmxValue (raw : ℕ) (minOut maxOut : ℚ) : ℚ :=
  minOut + ((raw : ℚ) / 255) * (maxOut - minOut)

/-- One row of `SACN_CHANNEL_SPEC` (const.py lines 39-52):
`(channel, ee_variable, min_in, max_in, min_out, max_out)`.  The channel
numbers are 1-based despite the `ch_0based` name in the source (the code
indexes `dmx[ch - 1]`). -/
structure SpecEntry where
  ch : ℕ
  eeVar : String
  minIn : ℤ
  maxIn : ℤ
  minOut : ℚ
  maxOut : ℚ
deriving DecidableEq, Repr

/-- `SACN_CHANNEL_SPEC` from const.py. -/
def SACN_CHANNEL_SPEC : List SpecEntry :=
  [⟨1, "Hull", 0, 100, 0, 1⟩,
   ⟨2, "Shield0", 0, 100, 0, 1⟩,
   ⟨3, "Shield1", 0, 100, 0, 1⟩,
   ⟨4, "Energy", 0, 100, 0, 1⟩,
   ⟨5, "RedAlert", 0, 1, 0, 1⟩,
   ⟨6, "YellowAlert", 0, 1, 0, 1⟩,
   ⟨7, "ShieldsUp", 0, 1, 0, 1⟩,
   ⟨8, "Docked", 0, 1, 0, 1⟩,
   ⟨9, "Docking", 0, 1, 0, 1⟩,
   ⟨10, "HasShip", 0, 1, 0, 1⟩,
   ⟨11, "Impulse", -1, 1, 0, 1⟩,
   ⟨12, "Warp", 0, 4, 0, 1⟩]

/-- `SACN_CHANNEL_NAMES` from const.py. -/
def SACN_CHANNEL_NAMES : List String :=
  ["hull", "frontShield", "rearShield", "energy", "redAlert", "yellowAlert",
   "shieldsUp", "docked", "docking", "hasShip", "impulse", "warp"]

/-- The `zip(SACN_CHANNEL_SPEC, SACN_CHANNEL_NAMES)` iterated by
`_packet_received`. -/
def specPairs : List (SpecEntry × String) := SACN_CHANNEL_SPEC.zip SACN_CHANNEL_NAMES

/-- The listener's mutable state: configured universe (`_universe`; the
field is named `univ` because `universe` is a Lean keyword) and the
`_data` dict (channel name to decoded value). -/
structure ListenerState where
  univ : ℕ
  data : List (String × ℚ)
deriving DecidableEq, Repr

/-- The initial `_data` dict: every known channel name at `0.0`. -/
def initListenerData : List (String × ℚ) := SACN_CHANNEL_NAMES.map (fun n => (n, (0 : ℚ)))

/-- First-match lookup in an association list, the read side of a Python
dict keyed by channel name. -/
def lookupStr (k : String) : List (String × ℚ) → Option ℚ
  | [] => none
  | (k0, v) :: rest => if k0 = k then some v else lookupStr k rest

/-- Set one key in the dict: overwrite the existing binding in place, or
append a new one (Python dict assignment). -/
def dictSet (d : List (String × ℚ)) (k : String) (v : ℚ) : List (String × ℚ) :=
  match d with
  | [] => [(k, v)]
  | (k0, v0) :: rest => if k0 = k then (k, v) :: rest else (k0, v0) :: dictSet rest k v

/-- Python `d.update(new)`: set each binding of `new` in order. -/
def dictUpdate (d upd : List (String × ℚ)) : List (String × ℚ) :=
  upd.foldl (fun acc kv => dictSet acc kv.1 kv.2) d

/-- The `new_data` dict built by `_packet_received` (lines 86-93): one
decoded entry per spec row whose channel number is within the packet's
DMX payload.  `dmx.getD (e.ch - 1) 0` matches the in-range access
`dmx[ch_0based - 1]`; every spec row has `ch ≥ 1`, so Python's
negative-index semantics are never exercised. -/
def buildNewDataAux : List (SpecEntry × String) → List ℕ → List (String × ℚ)
  | [], _ => []
  | (e, nm) :: rest, dmx =>
    if e.ch ≤ dmx.length then
      (nm, decodeDmxValue (dmx.getD (e.ch - 1) 0) e.minOut e.maxOut) :: buildNewDataAux rest dmx
    else buildNewDataAux rest dmx

/-- The `new_data` built from one packet. -/
def buildNewData (dmx : List ℕ) : List (String × ℚ) := buildNewDataAux specPairs dmx

/-- `_packet_received` (sacn_listener.py lines 82-102): drop the packet
when the universe differs, build `new_data`, return early when it is
empty, otherwise merge it into `_data` and fire the callback.  The
returned boolean reports whether the registered callback was invoked. -/
def packetReceived (st : ListenerState) (u : ℕ) (dmx : List ℕ) :
    ListenerState × Bool :=
  if u ≠ st.univ then (st, false)
  else
    let newData := buildNewData dmx
    if newData = [] then (st, false)
    else ({ st with data := dictUpdate st.data newData }, true)

/-! ## Derived observations used by the claim statements -/

/-- Whether an `exec_lua` outcome is the raised `EEAPIError`. -/
def isErr (r : Except EEAPIError String) : Bool :=
  match r with
  | .error _ => true
  | .ok _ => false

/-- The claim-side failure condition for `exec_lua`: the response body is
a JSON object containing an `ERROR` key. -/
def bodyHasJsonError (body : String) : Bool :=
  match jsonLoads body with
  | some (Json.obj kvs) => objHasErrorKey kvs
  | _ => false

/-- The claim-side condition under which `exec_lua` raises: transport
failure, non-200 status, or a JSON error object body. -/
def outcomeBad (o : TransportOutcome) : Bool :=
  match o with
  | .transportFail _ => true
  | .response status body => status ≠ 200 || bodyHasJsonError body

/-- Projection of a cycle result to the published `server_reachable`
fact (`none` when the cycle raised). -/
def serverReachableOf (r : Except PyExc CycleData) : Option Bool :=
  match r with
  | .ok d => some d.http.server_reachable
  | .error _ => none

/-- The nine-fold copy of one transport outcome: the scenario in which
every RPC call meets the same fate. -/
def allOutcomes (t : TransportOutcome) : CycleOutcomes :=
  ⟨t, t, t, t, t, t, t, t, t⟩

/-- Decidable equality for `Except`, used to evaluate cycle results on
concrete inputs. -/
instance {e a : Type} [DecidableEq e] [DecidableEq a] : DecidableEq (Except e a) := fun x y =>
  match x, y with
  | .ok v, .ok w => if h : v = w then .isTrue (by rw [h]) else .isFalse (by simp [h])
  | .error v, .error w => if h : v = w then .isTrue (by rw [h]) else .isFalse (by simp [h])
  | .ok _, .error _ => .isFalse (by simp)
  | .error _, .ok _ => .isFalse (by simp)

/-! ## Helper lemmas -/

theorem toList_mk (cs : List Char) : (String.mk cs).toList = cs := rfl

theorem skipWhile_append_last (p : Char → Bool) (c : Char) (h : p c = false) :
    ∀ xs : List Char, ∃ ys, skipWhile p (xs ++ [c]) = ys ++ [c] := by
  intro xs
  induction xs with
  | nil => exact ⟨[], by simp [skipWhile, h]⟩
  | cons x rest ih =>
    by_cases hx : p x
    · simpa [skipWhile, hx] using ih
    · exact ⟨x :: rest, by simp [skipWhile, hx]⟩

theorem jsonWs_to_pyWs (c : Char) (h : jsonWsB c = true) : pyWsB c = true := by
  simp only [jsonWsB, Bool.or_eq_true, decide_eq_true_eq] at h
  rcases h with ((rfl | rfl) | rfl) | rfl <;> decide

theorem skipWhile_py_of_json (cs t : List Char)
    (h : skipWhile jsonWsB cs = '{' :: t) : skipWhile pyWsB cs = '{' :: t := by
  induction cs with
  | nil => simp [skipWhile] at h
  | cons c rest ih =>
    by_cases hj : jsonWsB c
    · rw [skipWhile, if_pos hj] at h
      rw [skipWhile, if_pos (jsonWs_to_pyWs c hj)]
      exact ih h
    · rw [skipWhile, if_neg hj] at h
      obtain ⟨rfl, rfl⟩ := List.cons.inj h
      rw [skipWhile, if_neg (by decide : ¬ pyWsB '{' = true)]

theorem stripEnds_brace (cs t : List Char) (h : skipWhile pyWsB cs = '{' :: t) :
    ∃ u, stripEnds pyWsB cs = '{' :: u := by
  unfold stripEnds
  rw [h]
  have : ('{' :: t).reverse = t.reverse ++ ['{'] := by simp
  rw [this]
  obtain ⟨ys, hy⟩ := skipWhile_append_last pyWsB '{' (by decide) t.reverse
  exact ⟨ys.reverse, by simp [hy]⟩

theorem getVictoryFaction_some_ne_empty (r : Except EEAPIError String) (f : String)
    (h : getVictoryFaction r = some f) : f ≠ "" := by
  cases r with
  | error e => simp [getVictoryFaction] at h
  | ok t =>
    simp only [getVictoryFaction] at h
    split at h
    · exact absurd h (by simp)
    · rename_i hc
      obtain rfl := Option.some.inj h
      intro he
      exact hc (Or.inl he)

theorem lookupStr_dictSet_ne (d : List (String × ℚ)) (k k2 : String) (v : ℚ)
    (h : k2 ≠ k) : lookupStr k (dictSet d k2 v) = lookupStr k d := by
  induction d with
  | nil => simp [dictSet, lookupStr, h]
  | cons kv rest ih =>
    obtain ⟨k0, v0⟩ := kv
    by_cases h0 : k0 = k2
    · subst h0
      simp [dictSet, lookupStr, h]
    · by_cases hk : k0 = k
      · simp [dictSet, h0, lookupStr, hk, Ne.symm h]
      · simp [dictSet, h0, lookupStr, hk, ih]

theorem lookupStr_dictUpdate_none (upd : List (String × ℚ)) :
    ∀ (d : List (String × ℚ)) (k : String), lookupStr k upd = none →
      lookupStr k (dictUpdate d upd) = lookupStr k d := by
  induction upd with
  | nil => intro d k _; rfl
  | cons kv rest ih =>
    intro d k h
    obtain ⟨k0, v0⟩ := kv
    have h0 : k0 ≠ k := by
      intro e
      rw [lookupStr, if_pos e] at h
      exact Option.noConfusion h
    have h1 : lookupStr k rest = none := by
      rwa [lookupStr, if_neg h0] at h
    show lookupStr k (dictUpdate (dictSet d k0 v0) rest) = lookupStr k d
    rw [ih (dictSet d k0 v0) k h1, lookupStr_dictSet_ne d k k0 v0 h0]

theorem buildNewDataAux_lookup_none (pairs : List (SpecEntry × String)) (dmx : List ℕ)
    (nm : String) (h : ∀ pr ∈ pairs, pr.2 = nm → dmx.length < pr.1.ch) :
    lookupStr nm (buildNewDataAux pairs dmx) = none := by
  induction pairs with
  | nil => rfl
  | cons pr rest ih =>
    obtain ⟨e, n0⟩ := pr
    have ihr : lookupStr nm (buildNewDataAux rest dmx) = none :=
      ih (fun pr2 hpr2 => h pr2 (List.mem_cons_of_mem _ hpr2))
    by_cases hc : e.ch ≤ dmx.length
    · have hn : n0 ≠ nm := by
        intro e0
        have hh : dmx.length < e.ch := h (e, n0) (List.mem_cons_self _ _) e0
        omega
      rw [buildNewDataAux, if_pos hc, lookupStr, if_neg hn]
      exact ihr
    · rw [buildNewDataAux, if_neg hc]
      exact ihr

theorem specPairs_name_inj :
    ∀ pr ∈ specPairs, ∀ pr2 ∈ specPairs, pr.2 = pr2.2 → pr = pr2 := by decide

/-! ## Claims -/

/-- Claim C5: for every byte value `b` in `[0, 255]` and every output
range `[lo, hi]`, the telemetry byte decoder returns
`lo + (b / 255) * (hi - lo)`, and at the endpoints `decode 0 = lo` and
`decode 255 = hi` exactly.  (Real-number semantics of the Python float
expression; see `decodeDmxValue`.) -/
theorem claim_C5_decode_linear (lo hi : ℚ) :
    decodeDmxValue 0 lo hi = lo ∧ decodeDmxValue 255 lo hi = hi ∧
    ∀ b : ℕ, b ≤ 255 → decodeDmxValue b lo hi = lo + ((b : ℚ) / 255) * (hi - lo) := by
  refine ⟨?_, ?_, fun b _ => rfl⟩
  · simp [decodeDmxValue]
  · unfold decodeDmxValue
    norm_num

/-- Witness for C5 at `b = 3`, `lo = 2`, `hi = 7`. -/
theorem claim_C5_witness :
    decodeDmxValue 0 2 7 = 2 ∧ decodeDmxValue 255 2 7 = 7 ∧ (3 : ℕ) ≤ 255 ∧
    decodeDmxValue 3 2 7 = 2 + ((3 : ℚ) / 255) * (7 - 2) :=
  ⟨(claim_C5_decode_linear 2 7).1, (claim_C5_decode_linear 2 7).2.1, by decide,
   (claim_C5_decode_linear 2 7).2.2 3 (by decide)⟩

/-- Claim C6: processing an accepted packet only overwrites the channels
whose spec index lies within the packet's DMX payload — a channel whose
1-based index exceeds the payload length keeps exactly its pre-packet
value. -/
theorem claim_C6_partial_update (st : ListenerState) (dmx : List ℕ)
    (e : SpecEntry) (nm : String) (hmem : (e, nm) ∈ specPairs)
    (hlen : dmx.length < e.ch) :
    lookupStr nm ((packetReceived st st.univ dmx).1).data = lookupStr nm st.data := by
  unfold packetReceived
  rw [if_neg (fun hne => hne rfl)]
  by_cases hnd : buildNewData dmx = []
  · simp [hnd]
  · simp only [hnd, if_neg hnd]
    apply lookupStr_dictUpdate_none
    apply buildNewDataAux_lookup_none
    intro pr hpr hname
    have hpr2 : pr = (e, nm) := specPairs_name_inj pr hpr (e, nm) hmem hname
    rw [hpr2]
    exact hlen

/-- Witness for C6: an empty payload against the hull channel (index 1). -/
theorem claim_C6_witness :
    ((⟨1, "Hull", 0, 100, 0, 1⟩ : SpecEntry), "hull") ∈ specPairs ∧
    ([] : List ℕ).length < 1 ∧
    lookupStr "hull" ((packetReceived ⟨2, initListenerData⟩ 2 []).1).data =
      lookupStr "hull" initListenerData :=
  ⟨by decide, by decide,
   claim_C6_partial_update ⟨2, initListenerData⟩ [] ⟨1, "Hull", 0, 100, 0, 1⟩ "hull"
     (by decide) (by decide)⟩

/-- Claim C7: a packet whose universe differs from the configured one
leaves the telemetry state completely unchanged and never fires the
burst-refresh callback. -/
theorem claim_C7_universe_mismatch (st : ListenerState) (u : ℕ) (dmx : List ℕ)
    (h : u ≠ st.univ) : packetReceived st u dmx = (st, false) := by
  unfold packetReceived
  rw [if_pos h]

/-- Witness for C7: universe 3 against a listener configured for 2. -/
theorem claim_C7_witness :
    (3 : ℕ) ≠ 2 ∧
    packetReceived ⟨2, initListenerData⟩ 3 [255, 7] = (⟨2, initListenerData⟩, false) :=
  ⟨by decide, claim_C7_universe_mismatch ⟨2, initListenerData⟩ 3 [255, 7] (by decide)⟩

theorem parseValue_obj_head (fuel : ℕ) (cs : List Char) (kvs : List (String × Json))
    (r : List Char) (h : parseValue fuel cs = some (Json.obj kvs, r)) :
    ∃ t, cs = '{' :: t := by
  match fuel, cs with
  | 0, cs => exact absurd h (by simp [parseValue])
  | fuel + 1, [] => exact absurd h (by simp [parseValue])
  | fuel + 1, c :: rest =>
    rw [parseValue] at h
    by_cases h1 : c = '{'
    · exact ⟨rest, by rw [h1]⟩
    · exfalso
      rw [if_neg h1] at h
      by_cases h2 : c = '['
      · rw [if_pos h2] at h
        obtain ⟨p, -, he⟩ := Option.map_eq_some'.mp h
        simp at he
      · rw [if_neg h2] at h
        by_cases h3 : c = Char.ofNat 34
        · rw [if_pos h3] at h
          obtain ⟨p, -, he⟩ := Option.map_eq_some'.mp h
          simp at he
        · rw [if_neg h3] at h
          by_cases h4 : c = 't'
          · rw [if_pos h4] at h
            obtain ⟨p, -, he⟩ := Option.map_eq_some'.mp h
            simp at he
          · rw [if_neg h4] at h
            by_cases h5 : c = 'f'
            · rw [if_pos h5] at h
              obtain ⟨p, -, he⟩ := Option.map_eq_some'.mp h
              simp at he
            · rw [if_neg h5] at h
              by_cases h6 : c = 'n'
              · rw [if_pos h6] at h
                obtain ⟨p, -, he⟩ := Option.map_eq_some'.mp h
                simp at he
              · rw [if_neg h6] at h
                obtain ⟨p, -, he⟩ := Option.map_eq_some'.mp h
                simp at he

theorem jsonLoads_obj_startsWith (s : String) (kvs : List (String × Json))
    (h : jsonLoads s = some (Json.obj kvs)) :
    pyStartsWith (pyStripWs s) braceStr = true := by
  simp only [jsonLoads] at h
  cases hp : parseValue (2 * s.toList.length + 8) (jsonSkipWs s.toList) with
  | none => rw [hp] at h; exact absurd h (by simp)
  | some p =>
    obtain ⟨v, rest⟩ := p
    rw [hp] at h
    dsimp only at h
    split at h
    · obtain rfl := Option.some.inj h
      obtain ⟨t, ht⟩ := parseValue_obj_head _ _ kvs rest hp
      have h2 : skipWhile pyWsB s.toList = '{' :: t := skipWhile_py_of_json _ _ ht
      obtain ⟨u, hu⟩ := stripEnds_brace _ _ h2
      show leadsWith braceStr.toList (pyStripWs s).toList = true
      rw [show braceStr.toList = ['{'] from by decide,
          show (pyStripWs s).toList = stripEnds pyWsB s.toList from rfl, hu]
      simp [leadsWith]
    · exact absurd h (by simp)

/-- Claim C9: `exec_lua` raises the remote-execution error exactly when
the transport fails, the HTTP status is not 200, or the body is a JSON
object containing an `ERROR` key; in every other case it returns the
response body text unchanged. -/
theorem claim_C9_exec_contract (o : TransportOutcome) :
    isErr (execLua o) = outcomeBad o ∧
    (∀ s b, o = TransportOutcome.response s b → outcomeBad o = false →
      execLua o = Except.ok b) := by
  constructor
  · cases o with
    | transportFail m => rfl
    | response status body =>
      by_cases hs : status = 200
      · subst hs
        rw [execLua, if_neg (by simp)]
        by_cases hb : pyStartsWith (pyStripWs body) braceStr
        · rw [if_pos hb]
          cases hj : jsonLoads body with
          | none => simp [isErr, outcomeBad, bodyHasJsonError, hj]
          | some v =>
            rcases v with _ | b2 | q | s2 | xs | kvs
            · simp [isErr, outcomeBad, bodyHasJsonError, hj]
            · simp [isErr, outcomeBad, bodyHasJsonError, hj]
            · simp [isErr, outcomeBad, bodyHasJsonError, hj]
            · simp [isErr, outcomeBad, bodyHasJsonError, hj]
            · simp [isErr, outcomeBad, bodyHasJsonError, hj]
            · by_cases he : objHasErrorKey kvs
              · simp [isErr, outcomeBad, bodyHasJsonError, hj, he]
              · simp [isErr, outcomeBad, bodyHasJsonError, hj, he]
        · rw [if_neg hb]
          have hberr : bodyHasJsonError body = false := by
            cases hj : jsonLoads body with
            | none => simp [bodyHasJsonError, hj]
            | some v =>
              rcases v with _ | b2 | q | s2 | xs | kvs
              · simp [bodyHasJsonError, hj]
              · simp [bodyHasJsonError, hj]
              · simp [bodyHasJsonError, hj]
              · simp [bodyHasJsonError, hj]
              · simp [bodyHasJsonError, hj]
              · exact absurd (jsonLoads_obj_startsWith body kvs hj) (by simp [hb])
          simp [isErr, outcomeBad, hberr]
      · rw [execLua, if_pos hs]
        simp [isErr, outcomeBad, hs]
  · intro s b ho hbad
    subst ho
    have hs : s = 200 := by
      by_contra hc
      simp [outcomeBad, hc] at hbad
    subst hs
    have hberr : bodyHasJsonError b = false := by
      simpa [outcomeBad] using hbad
    rw [execLua, if_neg (by simp)]
    by_cases hb : pyStartsWith (pyStripWs b) braceStr
    · rw [if_pos hb]
      cases hj : jsonLoads b with
      | none => rfl
      | some v =>
        rcases v with _ | b2 | q | s2 | xs | kvs
        · rfl
        · rfl
        · rfl
        · rfl
        · rfl
        · have he : objHasErrorKey kvs = false := by
            simpa [bodyHasJsonError, hj] using hberr
          simp [he]
    · rw [if_neg hb]

/-- Witness for C9: a plain 200 reply is returned unchanged. -/
theorem claim_C9_witness :
    outcomeBad (TransportOutcome.response 200 "hello") = false ∧
    execLua (TransportOutcome.response 200 "hello") = Except.ok "hello" :=
  ⟨by decide,
   (claim_C9_exec_contract (TransportOutcome.response 200 "hello")).2 200 "hello" rfl
     (by decide)⟩

theorem deriveStatus_ne_setup (v : Option String) (p : Bool) :
    deriveStatus v p ≠ GAME_STATUS_SETUP := by
  unfold deriveStatus
  split_ifs <;> decide

theorem deriveStatus_spec (r : Except EEAPIError String) (p : Bool) :
    (getVictoryFaction r = none ∧
      (deriveStatus (getVictoryFaction r) p = GAME_STATUS_PAUSED ∨
       deriveStatus (getVictoryFaction r) p = GAME_STATUS_PLAYING)) ∨
    ((getVictoryFaction r).isSome = true ∧
      (deriveStatus (getVictoryFaction r) p = GAME_STATUS_GAME_OVER_VICTORY ∨
       deriveStatus (getVictoryFaction r) p = GAME_STATUS_GAME_OVER_DEFEAT)) := by
  cases hv : getVictoryFaction r with
  | none =>
    left
    refine ⟨rfl, ?_⟩
    by_cases hp : p = true
    · left
      simp [deriveStatus, pyTruthyOptStr, hp]
    · right
      simp [deriveStatus, pyTruthyOptStr, hp]
  | some f =>
    right
    have hf : f ≠ "" := getVictoryFaction_some_ne_empty r f hv
    refine ⟨rfl, ?_⟩
    by_cases hc : pyContains (pyLower f) "human" = true
    · left
      simp [deriveStatus, pyTruthyOptStr, hf, hc]
    · right
      simp [deriveStatus, pyTruthyOptStr, hf, hc]

/-- Claim C1: on every published fusion cycle the derived game status
satisfies the invariants: it is `setup` iff `has_game` is false; it is
`game_over_victory`/`game_over_defeat` iff `victory_faction` is non-null;
a non-null `victory_faction` excludes `paused` and `playing`; and
`paused`/`playing` occur only with a running game and a null
`victory_faction`. -/
theorem claim_C1_status_invariants (o : CycleOutcomes) (sacn : List (String × ℚ))
    (st : InferState) (now : ℚ) (st2 : InferState) (d : CycleData)
    (h : asyncUpdateData o sacn st now = (st2, Except.ok d)) :
    (d.game_status = GAME_STATUS_SETUP ↔ d.http.has_game = false) ∧
    ((d.game_status = GAME_STATUS_GAME_OVER_VICTORY ∨
      d.game_status = GAME_STATUS_GAME_OVER_DEFEAT) ↔ d.http.victory_faction ≠ none) ∧
    (d.http.victory_faction ≠ none →
      d.game_status ≠ GAME_STATUS_PAUSED ∧ d.game_status ≠ GAME_STATUS_PLAYING) ∧
    ((d.game_status = GAME_STATUS_PAUSED ∨ d.game_status = GAME_STATUS_PLAYING) →
      d.http.has_game = true ∧ d.http.victory_faction = none) := by
  cases hg : getHasGame (execLua o.has_game) with
  | false =>
    simp only [asyncUpdateData, hg, Bool.false_eq_true, if_false] at h
    rw [Prod.mk.injEq] at h
    obtain ⟨-, h2⟩ := h
    obtain rfl := Except.ok.inj h2
    refine ⟨by simp, by simp [GAME_STATUS_SETUP, GAME_STATUS_GAME_OVER_VICTORY,
      GAME_STATUS_GAME_OVER_DEFEAT], by simp, ?_⟩
    intro hc
    exact absurd hc (by simp [GAME_STATUS_SETUP, GAME_STATUS_PAUSED, GAME_STATUS_PLAYING])
  | true =>
    simp only [asyncUpdateData, hg, if_true] at h
    cases hq1 : getPlayerShipCount (execLua o.player_ship_count) with
    | error e => rw [hq1] at h; simp at h
    | ok psc =>
      rw [hq1] at h
      simp only at h
      cases hq2 : getTotalObjects (execLua o.total_objects) with
      | error e => rw [hq2] at h; simp at h
      | ok tot =>
        rw [hq2] at h
        simp only at h
        cases hq3 : getEnemyShipCount (execLua o.enemy_ship_count) with
        | error e => rw [hq3] at h; simp at h
        | ok enemy =>
          rw [hq3] at h
          simp only at h
          cases hq4 : getFriendlyStationCount (execLua o.friendly_station_count) with
          | error e => rw [hq4] at h; simp at h
          | ok friendly =>
            rw [hq4] at h
            simp only at h
            cases hq5 : getPrimaryShipInfo (execLua o.primary_ship) with
            | error e => rw [hq5] at h; simp at h
            | ok ship =>
              rw [hq5] at h
              simp only at h
              rw [Prod.mk.injEq] at h
              obtain ⟨-, h2⟩ := h
              obtain rfl := Except.ok.inj h2
              refine ⟨?_, ?_, ?_, ?_⟩
              · exact iff_of_false
                  (deriveStatus_ne_setup _ _)
                  (by simp)
              · rcases deriveStatus_spec (execLua o.victory_faction)
                    (if isPausedQuery (execLua o.is_paused) = true then (true, st)
                     else inferPaused st (getScenarioTime (execLua o.scenario_time)) now).1
                  with ⟨hv, hs | hs⟩ | ⟨hv, hs | hs⟩ <;>
                  simp only [CycleData.http, HttpData.victory_faction, CycleData.game_status] <;>
                  rw [hs]
                · exact iff_of_false (by decide) (by simp [hv])
                · exact iff_of_false (by decide) (by simp [hv])
                · obtain ⟨f, hf⟩ := Option.isSome_iff_exists.mp hv
                  exact iff_of_true (Or.inl rfl) (by simp [hf])
                · obtain ⟨f, hf⟩ := Option.isSome_iff_exists.mp hv
                  exact iff_of_true (Or.inr rfl) (by simp [hf])
              · rcases deriveStatus_spec (execLua o.victory_faction)
                    (if isPausedQuery (execLua o.is_paused) = true then (true, st)
                     else inferPaused st (getScenarioTime (execLua o.scenario_time)) now).1
                  with ⟨hv, hs | hs⟩ | ⟨hv, hs | hs⟩
                · exact fun hne => absurd hv hne
                · exact fun hne => absurd hv hne
                · simp only [CycleData.http, HttpData.victory_faction, CycleData.game_status]
                  rw [hs]
                  exact fun _ => ⟨by decide, by decide⟩
                · simp only [CycleData.http, HttpData.victory_faction, CycleData.game_status]
                  rw [hs]
                  exact fun _ => ⟨by decide, by decide⟩
              · rcases deriveStatus_spec (execLua o.victory_faction)
                    (if isPausedQuery (execLua o.is_paused) = true then (true, st)
                     else inferPaused st (getScenarioTime (execLua o.scenario_time)) now).1
                  with ⟨hv, hs | hs⟩ | ⟨hv, hs | hs⟩
                · exact fun _ => ⟨rfl, hv⟩
                · exact fun _ => ⟨rfl, hv⟩
                · simp only [CycleData.http, HttpData.victory_faction, CycleData.game_status,
                    HttpData.has_game]
                  rw [hs]
                  intro hc
                  rcases hc with hc | hc <;> exact absurd hc (by decide)
                · simp only [CycleData.http, HttpData.victory_faction, CycleData.game_status,
                    HttpData.has_game]
                  rw [hs]
                  intro hc
                  rcases hc with hc | hc <;> exact absurd hc (by decide)

/-- Witness for C1: a concrete paused cycle (game running, pause query
true, no victory faction). -/
theorem claim_C1_witness :
    (GAME_STATUS_PAUSED = GAME_STATUS_SETUP ↔ (true : Bool) = false) ∧
    ((GAME_STATUS_PAUSED = GAME_STATUS_GAME_OVER_VICTORY ∨
      GAME_STATUS_PAUSED = GAME_STATUS_GAME_OVER_DEFEAT) ↔ (none : Option String) ≠ none) ∧
    ((none : Option String) ≠ none →
      GAME_STATUS_PAUSED ≠ GAME_STATUS_PAUSED ∧ GAME_STATUS_PAUSED ≠ GAME_STATUS_PLAYING) ∧
    ((GAME_STATUS_PAUSED = GAME_STATUS_PAUSED ∨ GAME_STATUS_PAUSED = GAME_STATUS_PLAYING) →
      (true : Bool) = true ∧ (none : Option String) = none) :=
  claim_C1_status_invariants
    ⟨TransportOutcome.response 200 "true", TransportOutcome.response 200 "",
     TransportOutcome.response 200 "0", TransportOutcome.response 200 "true",
     TransportOutcome.response 200 "", TransportOutcome.response 200 "0",
     TransportOutcome.response 200 "0", TransportOutcome.response 200 "0",
     TransportOutcome.response 200 ""⟩
    [] ⟨none, 0, none, 0⟩ 0 ⟨none, 0, none, 0⟩
    { sacn := [],
      http := { server_reachable := true, has_game := true, scenario_time := none,
                player_ship_count := 0, paused := true, victory_faction := none,
                total_objects := 0, enemy_ship_count := 0, friendly_station_count := 0,
                primary_ship := some ⟨none, none, none, none, none, none, none, none, none⟩ },
      game_status := GAME_STATUS_PAUSED }
    (by decide)

/-- Claim C10: when a published cycle carries a non-null victory faction,
the terminal status is decided by a case-insensitive substring test —
`game_over_victory` iff the faction name contains "human" ignoring case,
`game_over_defeat` otherwise. -/
theorem claim_C10_human_substring (o : CycleOutcomes) (sacn : List (String × ℚ))
    (st : InferState) (now : ℚ) (st2 : InferState) (d : CycleData) (f : String)
    (h : asyncUpdateData o sacn st now = (st2, Except.ok d))
    (hv : d.http.victory_faction = some f) :
    (d.game_status = GAME_STATUS_GAME_OVER_VICTORY ↔
      pyContains (pyLower f) "human" = true) ∧
    (pyContains (pyLower f) "human" = false →
      d.game_status = GAME_STATUS_GAME_OVER_DEFEAT) := by
  cases hg : getHasGame (execLua o.has_game) with
  | false =>
    simp only [asyncUpdateData, hg, Bool.false_eq_true, if_false] at h
    rw [Prod.mk.injEq] at h
    obtain ⟨-, h2⟩ := h
    obtain rfl := Except.ok.inj h2
    exact absurd hv (by simp)
  | true =>
    simp only [asyncUpdateData, hg, if_true] at h
    cases hq1 : getPlayerShipCount (execLua o.player_ship_count) with
    | error e => rw [hq1] at h; simp at h
    | ok psc =>
      rw [hq1] at h
      simp only at h
      cases hq2 : getTotalObjects (execLua o.total_objects) with
      | error e => rw [hq2] at h; simp at h
      | ok tot =>
        rw [hq2] at h
        simp only at h
        cases hq3 : getEnemyShipCount (execLua o.enemy_ship_count) with
        | error e => rw [hq3] at h; simp at h
        | ok enemy =>
          rw [hq3] at h
          simp only at h
          cases hq4 : getFriendlyStationCount (execLua o.friendly_station_count) with
          | error e => rw [hq4] at h; simp at h
          | ok friendly =>
            rw [hq4] at h
            simp only at h
            cases hq5 : getPrimaryShipInfo (execLua o.primary_ship) with
            | error e => rw [hq5] at h; simp at h
            | ok ship =>
              rw [hq5] at h
              simp only at h
              rw [Prod.mk.injEq] at h
              obtain ⟨-, h2⟩ := h
              obtain rfl := Except.ok.inj h2
              simp only [CycleData.http, HttpData.victory_faction] at hv
              have hfne : f ≠ "" := getVictoryFaction_some_ne_empty _ f hv
              have hds : ∀ p : Bool,
                  deriveStatus (getVictoryFaction (execLua o.victory_faction)) p =
                    if pyContains (pyLower f) "human" = true then
                      GAME_STATUS_GAME_OVER_VICTORY
                    else GAME_STATUS_GAME_OVER_DEFEAT := by
                intro p
                rw [hv]
                simp [deriveStatus, pyTruthyOptStr, hfne]
              simp only [CycleData.game_status]
              rw [hds]
              by_cases hc : pyContains (pyLower f) "human" = true
              · rw [if_pos hc]
                exact ⟨iff_of_true rfl hc, fun hcf => absurd hc (by simp [hcf])⟩
              · rw [if_neg hc]
                exact ⟨iff_of_false (by decide) hc, fun _ => rfl⟩

/-- Witness for C10: a cycle ending with victory faction "Human Navy". -/
theorem claim_C10_witness :
    (GAME_STATUS_GAME_OVER_VICTORY = GAME_STATUS_GAME_OVER_VICTORY ↔
      pyContains (pyLower "Human Navy") "human" = true) ∧
    (pyContains (pyLower "Human Navy") "human" = false →
      GAME_STATUS_GAME_OVER_VICTORY = GAME_STATUS_GAME_OVER_DEFEAT) :=
  claim_C10_human_substring
    ⟨TransportOutcome.response 200 "true", TransportOutcome.response 200 "",
     TransportOutcome.response 200 "0", TransportOutcome.response 200 "false",
     TransportOutcome.response 200 "Human Navy", TransportOutcome.response 200 "0",
     TransportOutcome.response 200 "0", TransportOutcome.response 200 "0",
     TransportOutcome.response 200 ""⟩
    [] ⟨none, 0, none, 0⟩ 0 ⟨none, 0, none, 0⟩
    { sacn := [],
      http := { server_reachable := true, has_game := true, scenario_time := none,
                player_ship_count := 0, paused := false,
                victory_faction := some "Human Navy", total_objects := 0,
                enemy_ship_count := 0, friendly_station_count := 0,
                primary_ship := some ⟨none, none, none, none, none, none, none, none, none⟩ },
      game_status := GAME_STATUS_GAME_OVER_VICTORY }
    "Human Navy" (by decide) rfl

/-- Claim C3, amended: when every RPC call fails (for example with HTTP
500), the fusion cycle still publishes — the previously decoded telemetry
is kept and the status is forced to `setup` — but the published facts
carry `server_reachable = true` and `has_game = false`, because the
has-game query swallows the remote-execution error internally and reports
"no game" instead of letting the coordinator's unreachable branch run. -/
theorem claim_C3_amended_cycle (body : String) (sacn : List (String × ℚ))
    (st : InferState) (now : ℚ) :
    asyncUpdateData (allOutcomes (TransportOutcome.response 500 body)) sacn st now =
      ({ st with last_scenario_time := none, last_inferred_paused := none,
                 running_count := 0 },
       Except.ok { sacn := sacn,
                   http := { server_reachable := true, has_game := false,
                             scenario_time := none, player_ship_count := 0,
                             paused := false, victory_faction := none,
                             total_objects := 0, enemy_ship_count := 0,
                             friendly_station_count := 0, primary_ship := none },
                   game_status := GAME_STATUS_SETUP }) := by
  have hg : getHasGame (execLua (TransportOutcome.response 500 body)) = false := by
    rw [execLua, if_pos (by decide : (500 : ℕ) ≠ 200)]
    rfl
  simp only [asyncUpdateData, allOutcomes, hg, Bool.false_eq_true, if_false]

/-- Counterexample to C3 as stated: after a cycle in which every RPC call
returned HTTP 500, the published `server_reachable` fact is `true`, not
`false`. -/
theorem claim_C3_counterexample :
    serverReachableOf
      (asyncUpdateData (allOutcomes (TransportOutcome.response 500 "boom"))
        [("hull", 1 / 2)] ⟨none, 0, none, 0⟩ 0).2 = some true := rfl

/-- Claim C2: the Pause Inferencer applies hysteresis.  With a stored
scenario time and samples at least 1 s apart: (a) any raw-paused sample
(scenario advance below the 0.2 threshold) immediately yields paused=true
and resets the running counter; (b) from a freshly paused state (inferred
paused, counter 0), the first raw-running sample still reports
paused=true, and only the second consecutive raw-running sample reports
paused=false. -/
theorem claim_C2_hysteresis (s : InferState) (t0 t1 t2 n1 n2 : ℚ)
    (hlast : s.last_scenario_time = some (PyFloat.finite t0))
    (hsp1 : 1 ≤ n1 - s.last_scenario_time_at) :
    (t1 - t0 < 1 / 5 →
      (inferPaused s (some (PyFloat.finite t1)) n1).1 = true ∧
      (inferPaused s (some (PyFloat.finite t1)) n1).2.running_count = 0) ∧
    (s.last_inferred_paused = some true → s.running_count = 0 →
      1 / 5 ≤ t1 - t0 → 1 / 5 ≤ t2 - t1 → 1 ≤ n2 - n1 →
      (inferPaused s (some (PyFloat.finite t1)) n1).1 = true ∧
      (inferPaused ((inferPaused s (some (PyFloat.finite t1)) n1).2)
        (some (PyFloat.finite t2)) n2).1 = false) := by
  constructor
  · intro hraw
    have hb : PyFloat.ltB (PyFloat.sub (PyFloat.finite t1) (PyFloat.finite t0))
        (PyFloat.finite (1 / 5)) = true := by
      simp only [PyFloat.sub, PyFloat.ltB, decide_eq_true_eq]
      exact hraw
    simp only [inferPaused, hlast]
    rw [if_pos hsp1, hb]
    exact ⟨rfl, rfl⟩
  · intro hflag hcount h1 h2 hsp2
    have hb1 : PyFloat.ltB (PyFloat.sub (PyFloat.finite t1) (PyFloat.finite t0))
        (PyFloat.finite (1 / 5)) = false := by
      simp only [PyFloat.sub, PyFloat.ltB, decide_eq_false_iff_not]
      linarith
    have hstep1 : inferPaused s (some (PyFloat.finite t1)) n1 =
        (true, { last_scenario_time := some (PyFloat.finite t1),
                 last_scenario_time_at := n1, last_inferred_paused := some true,
                 running_count := 1 }) := by
      simp only [inferPaused, hlast]
      rw [if_pos hsp1, hb1]
      simp only [Bool.false_eq_true, if_false, if_pos hflag, hcount]
      rfl
    rw [hstep1]
    refine ⟨rfl, ?_⟩
    have hb2 : PyFloat.ltB (PyFloat.sub (PyFloat.finite t2) (PyFloat.finite t1))
        (PyFloat.finite (1 / 5)) = false := by
      simp only [PyFloat.sub, PyFloat.ltB, decide_eq_false_iff_not]
      linarith
    simp only [inferPaused]
    rw [if_pos (by simpa using hsp2), hb2]
    simp

/-- Witness for C2: from a paused state at scenario time 10, samples 12
and 14 at 1.5 s and 3 s — the first running sample still reports paused,
the second reports running. -/
theorem claim_C2_witness :
    (inferPaused ⟨some (PyFloat.finite 10), 0, some true, 0⟩
      (some (PyFloat.finite 12)) (3 / 2)).1 = true ∧
    (inferPaused (inferPaused ⟨some (PyFloat.finite 10), 0, some true, 0⟩
        (some (PyFloat.finite 12)) (3 / 2)).2
      (some (PyFloat.finite 14)) 3).1 = false :=
  (claim_C2_hysteresis ⟨some (PyFloat.finite 10), 0, some true, 0⟩ 10 12 14 (3 / 2) 3
      rfl (by decide)).2
    rfl rfl (by decide) (by decide) (by decide)

/-- Claim C8, amended: a `None` scenario time clears the stored scenario
time and the consecutive-running counter and returns the last inferred
paused value — `false` only when no inference was ever recorded; the
sticky `last_inferred_paused` flag itself and the stored sample timestamp
are kept. -/
theorem claim_C8_amended_null_reset (s : InferState) (now : ℚ) :
    (inferPaused s none now).1 = s.last_inferred_paused.getD false ∧
    (inferPaused s none now).2.last_scenario_time = none ∧
    (inferPaused s none now).2.running_count = 0 ∧
    (inferPaused s none now).2.last_inferred_paused = s.last_inferred_paused ∧
    (inferPaused s none now).2.last_scenario_time_at = s.last_scenario_time_at :=
  ⟨rfl, rfl, rfl, rfl, rfl⟩

/-- Counterexample to C8 as stated: feeding a null scenario time from a
state whose last inference was "paused" returns `true`, not the claimed
`false`. -/
theorem claim_C8_counterexample :
    (inferPaused ⟨some (PyFloat.finite 5), 0, some true, 3⟩ none 10).1 = true := rfl

/-- Claim C4 (code bug): the defensive numeric coercion returns the safe
default 0 for a non-numeric reply such as "nope", but a reply of "inf"
parses as an infinite float and `int()` then raises an `OverflowError`
that the `except (EEAPIError, ValueError)` clause does not catch — the
query method raises instead of returning its safe default. -/
theorem claim_C4_inf_reply_overflow :
    getPlayerShipCount (Except.ok "nope") = Except.ok 0 ∧
    getPlayerShipCount (Except.ok "inf") = Except.error PyExc.overflowError ∧
    getScenarioTime (Except.ok "nope") = none ∧
    getHasGame (Except.ok "nope") = false ∧
    getVictoryFaction (Except.ok "nope") = some "nope" := by
  refine ⟨by decide, by decide, by decide, by decide, by decide⟩
